import Mathlib

/-!
Verification of the capture-overlay / recognition-engine / macro core of the
Japanese-OCR repository, as a shallow embedding in Lean 4.

The embedding follows the Python sources:
  * `src/gui/overlay.py`        — `CaptureWindow` geometry, resize, capture, persistence
  * `src/core/ocr_engine.py`    — `MangaOCRWrapper` load/infer/unload lifecycle
  * `src/core/paddle_ocr_engine.py` — `PaddleOCRWrapper.perform_ocr` filtering
  * `src/core/macro_system.py`  — `MacroManager` record/play state machine

Machine integers are modelled as `Int` (Qt geometry is 32-bit but none of the
claims approach overflow), timestamps and confidence scores as `ℚ`.
-/

namespace JOcr

/-! ## Overlay geometry (`src/gui/overlay.py`) -/

/-- An integer pixel rectangle `{x, y, width, height}` in virtual-screen
coordinates (Qt `QRect` under `CaptureWindow`). -/
structure Rect where
  x : Int
  y : Int
  w : Int
  h : Int
deriving DecidableEq, Repr

/-- `CaptureWindow.BORDER_WIDTH` -/
def BORDER_WIDTH : Int := 2

/-- `CaptureWindow.MIN_SIZE` -/
def MIN_SIZE : Int := 35

/-- `CaptureWindow.RESIZE_MARGIN` -/
def RESIZE_MARGIN : Int := 8

/-- `ResizeEdge` enum from `overlay.py`. -/
inductive ResizeEdge where
  | none | top | bottom | left | right
  | topLeft | topRight | bottomLeft | bottomRight
deriving DecidableEq, Repr

/-- `CaptureWindow._get_resize_edge`: classify a window-local pointer position
against the resize margin; corners are checked first and take priority. -/
def get_resize_edge (r : Rect) (px py : Int) : ResizeEdge :=
  let m := RESIZE_MARGIN
  let w := r.w
  let h := r.h
  if px < m ∧ py < m then .topLeft
  else if px > w - m ∧ py < m then .topRight
  else if px < m ∧ py > h - m then .bottomLeft
  else if px > w - m ∧ py > h - m then .bottomRight
  else if px < m then .left
  else if px > w - m then .right
  else if py < m then .top
  else if py > h - m then .bottom
  else .none

/-- `CaptureWindow._do_resize`: incremental resize from the *current* geometry.
`gx, gy` is the global pointer position; `dx, dy` is the pointer relative to
the window origin. East/south edges set the dimension to the pointer offset
clamped to `MIN_SIZE`; west/north edges shrink/grow the dimension and move the
origin, except that a shrink below `MIN_SIZE` pins the dimension at `MIN_SIZE`
without moving the origin. -/
def do_resize (edge : ResizeEdge) (r : Rect) (gx gy : Int) : Rect :=
  let x := r.x
  let y := r.y
  let w := r.w
  let h := r.h
  let dx := gx - x
  let dy := gy - y
  -- East edge: width = mouse x position relative to window
  let w := if edge = .right ∨ edge = .topRight ∨ edge = .bottomRight then
      max MIN_SIZE dx else w
  -- South edge: height = mouse y position relative to window
  let h := if edge = .bottom ∨ edge = .bottomLeft ∨ edge = .bottomRight then
      max MIN_SIZE dy else h
  -- West edge: move x and adjust width, clamped without moving x
  let xw : Int × Int :=
    if edge = .left ∨ edge = .topLeft ∨ edge = .bottomLeft then
      (if w - dx ≥ MIN_SIZE then (x + dx, w - dx) else (x, MIN_SIZE))
    else (x, w)
  -- North edge: move y and adjust height, clamped without moving y
  let yh : Int × Int :=
    if edge = .top ∨ edge = .topLeft ∨ edge = .topRight then
      (if h - dy ≥ MIN_SIZE then (y + dy, h - dy) else (y, MIN_SIZE))
    else (y, h)
  ⟨xw.1, yh.1, xw.2, yh.2⟩

/-- One observable step of `CaptureWindow.capture_region` / `_do_capture`. -/
inductive CapStep where
  | hide
  | waitMs (ms : Nat)
  | grab (x1 y1 x2 y2 : Int)
  | emitCaptured (w h : Int)
  | show
deriving DecidableEq, Repr

/-- `CaptureWindow.capture_region` followed by `_do_capture`, as the sequence
of observable steps it performs.  A paused overlay (`_hotkey_enabled = False`)
does nothing.  Otherwise the bbox is the current geometry shrunk by
`BORDER_WIDTH` on all four sides, the overlay hides, waits 50 ms, grabs the
bbox, emits the captured image (whose pixel size is the bbox size), and
re-shows the overlay. -/
def capture_region (hotkeyEnabled : Bool) (geo : Rect) : List CapStep :=
  if ¬hotkeyEnabled then []
  else
    let x1 := geo.x + BORDER_WIDTH
    let y1 := geo.y + BORDER_WIDTH
    let x2 := geo.x + geo.w - BORDER_WIDTH
    let y2 := geo.y + geo.h - BORDER_WIDTH
    [.hide, .waitMs 50, .grab x1 y1 x2 y2, .emitCaptured (x2 - x1) (y2 - y1), .show]

/-- The image sizes emitted by a capture trace. -/
def emittedSizes (steps : List CapStep) : List (Int × Int) :=
  steps.filterMap fun s =>
    match s with
    | .emitCaptured w h => some (w, h)
    | _ => Option.none

/-! ### Geometry persistence (`save_geometry_string` / `restore_geometry_string`)

Strings are modelled as `List Char`.  Python's `int(...)` is modelled as an
optional sign followed by decimal digits; its additional tolerance of
surrounding whitespace and embedded underscores is not modelled (no claim
depends on such strings). -/

/-- The decimal digit character for `d < 10` (`d = 9` catches all larger
arguments, which never occur). -/
def digitChar (d : Nat) : Char :=
  match d with
  | 0 => '0' | 1 => '1' | 2 => '2' | 3 => '3' | 4 => '4'
  | 5 => '5' | 6 => '6' | 7 => '7' | 8 => '8' | _ => '9'

/-- Numeric value of a decimal digit character. -/
def digitVal (c : Char) : Nat := c.toNat - 48

/-- Decimal representation of a natural number (Python `str` of a
non-negative `int`). -/
def natRepr (n : Nat) : List Char :=
  if _h : n < 10 then [digitChar n]
  else natRepr (n / 10) ++ [digitChar (n % 10)]
decreasing_by exact Nat.div_lt_self (by omega) (by omega)

/-- Decimal representation of an integer (Python `str` of an `int`):
a leading `'-'` for negative values. -/
def intRepr (i : Int) : List Char :=
  if i < 0 then '-' :: natRepr i.natAbs else natRepr i.toNat

/-- Python `int(s)` on an unsigned decimal string: all characters must be
digits and the string must be non-empty. -/
def parseNat (cs : List Char) : Option Nat :=
  if cs ≠ [] ∧ cs.all Char.isDigit then
    some (cs.foldl (fun a c => 10 * a + digitVal c) 0)
  else Option.none

/-- Python `int(s)`: optional sign followed by decimal digits. -/
def parseInt (cs : List Char) : Option Int :=
  match cs with
  | [] => Option.none
  | c :: rest =>
    if c = '-' then (parseNat rest).map (fun n => -(Int.ofNat n))
    else if c = '+' then (parseNat rest).map (fun n => Int.ofNat n)
    else (parseNat cs).map (fun n => Int.ofNat n)

/-- Python `str.split(sep)` for a one-character separator: splits at every
occurrence, keeping empty parts (n separators yield n+1 parts). -/
def splitOnChar (c : Char) : List Char → List (List Char)
  | [] => [[]]
  | ch :: rest =>
    match splitOnChar c rest with
    | [] => [[]]
    | p :: ps => if ch = c then [] :: p :: ps else (ch :: p) :: ps

/-- Qt `QRect.intersects`: at least one pixel in common (the right/bottom
pixel column/row of `QRect(x,y,w,h)` is at `x+w-1` / `y+h-1`; empty
rectangles intersect nothing). -/
def qrectIntersects (a b : Rect) : Bool :=
  decide (max a.x b.x ≤ min (a.x + a.w - 1) (b.x + b.w - 1)) &&
  decide (max a.y b.y ≤ min (a.y + a.h - 1) (b.y + b.h - 1))

/-- `CaptureWindow._is_position_valid`: the rectangle intersects at least one
screen's geometry. -/
def is_position_valid (screens : List Rect) (x y w h : Int) : Bool :=
  screens.any fun s => qrectIntersects s ⟨x, y, w, h⟩

/-- `CaptureWindow.save_geometry_string`: the compact `"WxH+X+Y"` form of the
current geometry. -/
def save_geometry_string (geo : Rect) : List Char :=
  intRepr geo.w ++ ['x'] ++ intRepr geo.h ++ ['+'] ++ intRepr geo.x ++ ['+'] ++ intRepr geo.y

/-- The parsing step of `CaptureWindow.restore_geometry_string`: replace every
`'x'` by `'+'`, split on `'+'`, and require at least four integer fields
(extra fields are ignored). -/
def parseGeometry (s : List Char) : Option (Int × Int × Int × Int) :=
  let parts := splitOnChar '+' (s.map fun c => if c = 'x' then '+' else c)
  if 4 ≤ parts.length then
    match parseInt (parts.getD 0 []), parseInt (parts.getD 1 []),
          parseInt (parts.getD 2 []), parseInt (parts.getD 3 []) with
    | some w, some h, some x, some y => some (w, h, x, y)
    | _, _, _, _ => Option.none
  else Option.none

/-- `CaptureWindow.restore_geometry_string`: parse, validate against the
screens, and only then apply (clamping width/height up to `MIN_SIZE`).
Returns the success flag and the resulting geometry (`cur` unchanged on
failure). -/
def restore_geometry_string (screens : List Rect) (cur : Rect) (s : List Char) :
    Bool × Rect :=
  match parseGeometry s with
  | some (w, h, x, y) =>
    if is_position_valid screens x y w h then
      (true, ⟨x, y, max w MIN_SIZE, max h MIN_SIZE⟩)
    else (false, cur)
  | Option.none => (false, cur)

/-- The literal "WxH+X+Y" shape the spec describes: an integer field, `'x'`,
an integer field, `'+'`, an integer field, `'+'`, an integer field. -/
def isWxHFormat (s : List Char) : Prop :=
  ∃ fw fh fx fy : List Char,
    (parseInt fw).isSome ∧ (parseInt fh).isSome ∧
    (parseInt fx).isSome ∧ (parseInt fy).isSome ∧
    s = fw ++ ['x'] ++ fh ++ ['+'] ++ fx ++ ['+'] ++ fy

theorem digitVal_digitChar {d : Nat} (h : d < 10) : digitVal (digitChar d) = d := by
  interval_cases d <;> rfl

theorem isDigit_digitChar {d : Nat} (h : d < 10) : (digitChar d).isDigit = true := by
  interval_cases d <;> rfl

theorem natRepr_spec (n : Nat) :
    natRepr n ≠ [] ∧ (∀ c ∈ natRepr n, c.isDigit = true) ∧
    (natRepr n).foldl (fun a c => 10 * a + digitVal c) 0 = n := by
  induction n using Nat.strong_induction_on with
  | _ n ih =>
    rw [natRepr]
    split
    · rename_i h
      simp [digitVal_digitChar h, isDigit_digitChar h]
    · rename_i h
      obtain ⟨hne, hdig, hval⟩ := ih (n / 10) (Nat.div_lt_self (by omega) (by omega))
      refine ⟨by simp, ?_, ?_⟩
      · intro c hc
        rcases List.mem_append.mp hc with h1 | h2
        · exact hdig c h1
        · simp only [List.mem_singleton] at h2
          subst h2
          exact isDigit_digitChar (Nat.mod_lt _ (by omega))
      · simp only [List.foldl_append, List.foldl_cons, List.foldl_nil]
        rw [hval, digitVal_digitChar (Nat.mod_lt _ (by omega))]
        omega

theorem parseNat_natRepr (n : Nat) : parseNat (natRepr n) = some n := by
  obtain ⟨hne, hdig, hval⟩ := natRepr_spec n
  rw [parseNat, if_pos ⟨hne, List.all_eq_true.mpr hdig⟩, hval]

theorem digit_not_special {c : Char} (h : c.isDigit = true) :
    c ≠ '-' ∧ c ≠ '+' ∧ c ≠ 'x' := by
  refine ⟨?_, ?_, ?_⟩ <;> rintro rfl <;> exact absurd h (by decide)

theorem mem_intRepr {i : Int} {c : Char} (h : c ∈ intRepr i) :
    c = '-' ∨ c.isDigit = true := by
  unfold intRepr at h
  split at h
  · rcases List.mem_cons.mp h with h1 | h2
    · exact Or.inl h1
    · exact Or.inr ((natRepr_spec _).2.1 c h2)
  · exact Or.inr ((natRepr_spec _).2.1 c h)

theorem x_not_mem_intRepr (i : Int) : 'x' ∉ intRepr i := by
  intro h
  rcases mem_intRepr h with h1 | h2
  · exact absurd h1 (by decide)
  · exact absurd h2 (by decide)

theorem plus_not_mem_intRepr (i : Int) : '+' ∉ intRepr i := by
  intro h
  rcases mem_intRepr h with h1 | h2
  · exact absurd h1 (by decide)
  · exact absurd h2 (by decide)

theorem parseInt_cons (c : Char) (rest : List Char) :
    parseInt (c :: rest) =
      if c = '-' then (parseNat rest).map (fun n => -(Int.ofNat n))
      else if c = '+' then (parseNat rest).map (fun n => Int.ofNat n)
      else (parseNat (c :: rest)).map (fun n => Int.ofNat n) := rfl

theorem parseInt_intRepr (i : Int) : parseInt (intRepr i) = some i := by
  unfold intRepr
  split
  · rename_i hneg
    rw [parseInt_cons, if_pos rfl, parseNat_natRepr, Option.map_some']
    congr 1
    simp only [Int.ofNat_eq_coe]
    omega
  · rename_i hpos
    obtain ⟨hne, hdig, -⟩ := natRepr_spec i.toNat
    cases hrepr : natRepr i.toNat with
    | nil => exact absurd hrepr hne
    | cons c rest =>
      have hc : c.isDigit = true := hdig c (by rw [hrepr]; exact List.mem_cons_self _ _)
      obtain ⟨h1, h2, -⟩ := digit_not_special hc
      rw [parseInt_cons, if_neg h1, if_neg h2, ← hrepr, parseNat_natRepr,
        Option.map_some']
      congr 1
      simp only [Int.ofNat_eq_coe]
      omega

theorem splitOnChar_cons (c ch : Char) (rest : List Char) :
    splitOnChar c (ch :: rest) =
      match splitOnChar c rest with
      | [] => [[]]
      | p :: ps => if ch = c then [] :: p :: ps else (ch :: p) :: ps := rfl

theorem splitOnChar_ne_nil (c : Char) (cs : List Char) : splitOnChar c cs ≠ [] := by
  induction cs with
  | nil => simp [splitOnChar]
  | cons ch rest ih =>
    rw [splitOnChar_cons]
    cases hsp : splitOnChar c rest with
    | nil => simp
    | cons p ps => by_cases hch : ch = c <;> simp [hch]

theorem splitOnChar_no_sep {c : Char} {cs : List Char} (h : c ∉ cs) :
    splitOnChar c cs = [cs] := by
  induction cs with
  | nil => rfl
  | cons ch rest ih =>
    have hch : ch ≠ c := fun he => h (he ▸ List.mem_cons_self _ _)
    rw [splitOnChar_cons, ih (fun hm => h (List.mem_cons_of_mem _ hm))]
    simp [hch]

theorem splitOnChar_sep_append {c : Char} {xs ys : List Char} (h : c ∉ xs) :
    splitOnChar c (xs ++ c :: ys) = xs :: splitOnChar c ys := by
  induction xs with
  | nil =>
    rw [List.nil_append, splitOnChar_cons]
    cases hy : splitOnChar c ys with
    | nil => exact absurd hy (splitOnChar_ne_nil c ys)
    | cons p ps => simp
  | cons x xs ih =>
    have hx : x ≠ c := fun he => h (he ▸ List.mem_cons_self _ _)
    rw [List.cons_append, splitOnChar_cons,
      ih (fun hm => h (List.mem_cons_of_mem _ hm))]
    simp [hx]

theorem mapX_id {cs : List Char} (h : 'x' ∉ cs) :
    (cs.map fun c => if c = 'x' then '+' else c) = cs := by
  induction cs with
  | nil => rfl
  | cons c rest ih =>
    have hc : c ≠ 'x' := fun he => h (he ▸ List.mem_cons_self _ _)
    simp only [List.map_cons, if_neg hc, ih (fun hm => h (List.mem_cons_of_mem _ hm))]

/-- Parsing the serialized geometry recovers the four fields exactly. -/
theorem parseGeometry_save (r : Rect) :
    parseGeometry (save_geometry_string r) = some (r.w, r.h, r.x, r.y) := by
  have hmap : ((save_geometry_string r).map fun c => if c = 'x' then '+' else c) =
      intRepr r.w ++ '+' :: (intRepr r.h ++ '+' :: (intRepr r.x ++ '+' :: intRepr r.y)) := by
    unfold save_geometry_string
    simp only [List.map_append, List.map_cons, List.map_nil, if_pos rfl,
      mapX_id (x_not_mem_intRepr r.w), mapX_id (x_not_mem_intRepr r.h),
      mapX_id (x_not_mem_intRepr r.x), mapX_id (x_not_mem_intRepr r.y)]
    simp
  unfold parseGeometry
  rw [hmap, splitOnChar_sep_append (plus_not_mem_intRepr r.w),
    splitOnChar_sep_append (plus_not_mem_intRepr r.h),
    splitOnChar_sep_append (plus_not_mem_intRepr r.x),
    splitOnChar_no_sep (plus_not_mem_intRepr r.y)]
  simp [parseInt_intRepr]

/-- C5: for every region with width, height ≥ `MIN_SIZE` whose rectangle
intersects at least one display, restoring the serialized `"WxH+X+Y"` string
succeeds and reproduces the region exactly (negative coordinates included),
regardless of the previous geometry. -/
theorem C5_serialize_roundtrip (screens : List Rect) (cur r : Rect)
    (hw : MIN_SIZE ≤ r.w) (hh : MIN_SIZE ≤ r.h)
    (hvis : is_position_valid screens r.x r.y r.w r.h = true) :
    restore_geometry_string screens cur (save_geometry_string r) = (true, r) := by
  simp only [restore_geometry_string, parseGeometry_save, hvis, if_true]
  rw [max_eq_left hw, max_eq_left hh]

/-- Witness for `C5_serialize_roundtrip` at the region (-50, 100, 300, 50)
(negative x) against a display at (-1920, 0, 1920, 1080). -/
theorem C5_serialize_roundtrip_witness :
    (MIN_SIZE ≤ (300 : Int) ∧ MIN_SIZE ≤ (50 : Int) ∧
      is_position_valid [⟨-1920, 0, 1920, 1080⟩] (-50) 100 300 50 = true) ∧
    restore_geometry_string [⟨-1920, 0, 1920, 1080⟩] ⟨0, 0, 35, 35⟩
      (save_geometry_string ⟨-50, 100, 300, 50⟩) = (true, ⟨-50, 100, 300, 50⟩) :=
  ⟨⟨by decide, by decide, by decide⟩,
    C5_serialize_roundtrip [⟨-1920, 0, 1920, 1080⟩] ⟨0, 0, 35, 35⟩
      ⟨-50, 100, 300, 50⟩ (by decide) (by decide) (by decide)⟩

/-- C6 counterexample: the string `"300+50+100+100"` is not of the
`"WxH+X+Y"` shape (it contains no `'x'` at all, while every `"WxH+X+Y"`
string does), yet `restore_geometry_string` accepts it — the code's parser
treats `'x'` and `'+'` as interchangeable separators — and changes the
geometry from (0,0,35,35) to (100,100,300,50) instead of returning failure
with the geometry unchanged. -/
theorem C6_counterexample :
    ¬isWxHFormat ['3', '0', '0', '+', '5', '0', '+', '1', '0', '0', '+', '1', '0', '0'] ∧
    restore_geometry_string [⟨0, 0, 1920, 1080⟩] ⟨0, 0, 35, 35⟩
        ['3', '0', '0', '+', '5', '0', '+', '1', '0', '0', '+', '1', '0', '0'] =
      (true, ⟨100, 100, 300, 50⟩) ∧
    (⟨100, 100, 300, 50⟩ : Rect) ≠ ⟨0, 0, 35, 35⟩ := by
  refine ⟨?_, by decide, by decide⟩
  rintro ⟨fw, fh, fx, fy, -, -, -, -, heq⟩
  have hx : 'x' ∈ ['3', '0', '0', '+', '5', '0', '+', '1', '0', '0', '+', '1', '0', '0'] := by
    rw [heq]
    simp
  exact absurd hx (by decide)

/-- C6 amended: `restore_geometry_string` returns failure with the overlay
geometry completely unchanged (no partial application) whenever the string
fails the code's lenient parse — which treats `'x'` and `'+'` as
interchangeable separators and ignores extra fields — or the parsed rectangle
intersects no display; on every failure the geometry is untouched.  (Strings
not literally of the `"WxH+X+Y"` shape can still be accepted when the lenient
parse succeeds.) -/
theorem C6_amended (screens : List Rect) (cur : Rect) (s : List Char) :
    ((restore_geometry_string screens cur s).1 = false →
      (restore_geometry_string screens cur s).2 = cur) ∧
    (parseGeometry s = Option.none →
      restore_geometry_string screens cur s = (false, cur)) ∧
    (∀ w h x y : Int, parseGeometry s = some (w, h, x, y) →
      is_position_valid screens x y w h = false →
      restore_geometry_string screens cur s = (false, cur)) := by
  refine ⟨?_, ?_, ?_⟩
  · unfold restore_geometry_string
    cases hp : parseGeometry s with
    | none => simp
    | some q =>
      obtain ⟨w, h, x, y⟩ := q
      by_cases hv : is_position_valid screens x y w h = true <;> simp [hv]
  · intro hp
    unfold restore_geometry_string
    rw [hp]
  · intro w h x y hp hv
    unfold restore_geometry_string
    rw [hp]
    simp [hv]

/-- Witness for `C6_amended`: the unparseable string `"a"` fails and leaves
the geometry (0,0,35,35) unchanged. -/
theorem C6_amended_witness :
    parseGeometry ['a'] = Option.none ∧
    restore_geometry_string [] ⟨0, 0, 35, 35⟩ ['a'] = (false, ⟨0, 0, 35, 35⟩) :=
  ⟨by decide, (C6_amended [] ⟨0, 0, 35, 35⟩ ['a']).2.1 (by decide)⟩

/-- C1 counterexample: with the overlay armed at geometry (100,100,300,50),
`capture_region` emits exactly one captured image, but its pixel size is
296×46 (the geometry shrunk by the 2 px border on all four sides), not the
claimed 300×50. -/
theorem C1_counterexample :
    emittedSizes (capture_region true ⟨100, 100, 300, 50⟩) = [(296, 46)] ∧
    (300, 50) ∉ emittedSizes (capture_region true ⟨100, 100, 300, 50⟩) := by
  decide

/-- C1 amended: for an armed overlay at any current geometry, `trigger_capture`
hides the overlay, waits the fixed 50 ms settle delay, grabs the pixel
rectangle strictly inside the 2 px border at the current geometry, delivers
exactly one captured-image event whose image is (w−4)×(h−4) pixels — hence
296×46 for the region (100,100,300,50) — and re-shows the overlay; a paused
overlay does nothing. -/
theorem C1_amended (geo : Rect) :
    capture_region true geo =
      [.hide, .waitMs 50,
       .grab (geo.x + 2) (geo.y + 2) (geo.x + geo.w - 2) (geo.y + geo.h - 2),
       .emitCaptured (geo.w - 4) (geo.h - 4), .show] ∧
    emittedSizes (capture_region true geo) = [(geo.w - 4, geo.h - 4)] ∧
    capture_region false geo = [] := by
  refine ⟨?_, ?_, rfl⟩ <;>
    simp only [capture_region, emittedSizes, BORDER_WIDTH, Bool.not_true,
      Bool.false_eq_true, if_false, List.filterMap] <;>
    norm_num [Prod.ext_iff] <;> omega

/-- C2 counterexample: dragging the Left edge of geometry (100,100,100,50) to
global pointer x = 180 requests width 20 < 35; the code pins the width at 35
but leaves the origin at x = 100, so the opposite (right) edge moves from
screen x = 200 to x = 135. -/
theorem C2_counterexample :
    do_resize .left ⟨100, 100, 100, 50⟩ 180 120 = ⟨100, 100, 35, 50⟩ ∧
    ¬((do_resize .left ⟨100, 100, 100, 50⟩ 180 120).x +
        (do_resize .left ⟨100, 100, 100, 50⟩ 180 120).w = 100 + 100) := by
  decide

/-- C2 amended: every single-edge resize from a geometry with width and height
≥ 35 yields width ≥ 35 and height ≥ 35.  A Right (resp. Bottom) drag never
changes the origin or the other axis, so its opposite edge is fixed for every
pointer position.  A Left (resp. Top) drag keeps the opposite edge fixed
whenever the requested new size stays ≥ 35; when the shrink crosses the
minimum, the axis is pinned at 35 with the origin left in place, which moves
the opposite edge to origin + 35. -/
theorem C2_amended (e : ResizeEdge) (r : Rect) (gx gy : Int)
    (hw : MIN_SIZE ≤ r.w) (hh : MIN_SIZE ≤ r.h)
    (he : e = .left ∨ e = .right ∨ e = .top ∨ e = .bottom) :
    MIN_SIZE ≤ (do_resize e r gx gy).w ∧ MIN_SIZE ≤ (do_resize e r gx gy).h ∧
    (e = .right → do_resize e r gx gy = ⟨r.x, r.y, max MIN_SIZE (gx - r.x), r.h⟩) ∧
    (e = .bottom → do_resize e r gx gy = ⟨r.x, r.y, r.w, max MIN_SIZE (gy - r.y)⟩) ∧
    (e = .left →
      (do_resize e r gx gy).y = r.y ∧ (do_resize e r gx gy).h = r.h ∧
      (MIN_SIZE ≤ r.w - (gx - r.x) →
        (do_resize e r gx gy).x + (do_resize e r gx gy).w = r.x + r.w) ∧
      (r.w - (gx - r.x) < MIN_SIZE →
        (do_resize e r gx gy).x = r.x ∧ (do_resize e r gx gy).w = MIN_SIZE)) ∧
    (e = .top →
      (do_resize e r gx gy).x = r.x ∧ (do_resize e r gx gy).w = r.w ∧
      (MIN_SIZE ≤ r.h - (gy - r.y) →
        (do_resize e r gx gy).y + (do_resize e r gx gy).h = r.y + r.h) ∧
      (r.h - (gy - r.y) < MIN_SIZE →
        (do_resize e r gx gy).y = r.y ∧ (do_resize e r gx gy).h = MIN_SIZE)) := by
  rcases he with rfl | rfl | rfl | rfl <;>
    simp [do_resize, MIN_SIZE] at hw hh ⊢ <;>
    first
      | omega
      | (constructor <;> omega)
      | (split_ifs <;> simp_all <;> try omega)

/-- Witness for `C2_amended` at a Left-edge drag on geometry (100,100,100,50)
with pointer (120,120): a 20 px shrink that stays above the minimum. -/
theorem C2_amended_witness :
    (MIN_SIZE ≤ (100 : Int) ∧ MIN_SIZE ≤ (50 : Int)) ∧
    MIN_SIZE ≤ (do_resize .left ⟨100, 100, 100, 50⟩ 120 120).w ∧
    MIN_SIZE ≤ (do_resize .left ⟨100, 100, 100, 50⟩ 120 120).h :=
  ⟨⟨by decide, by decide⟩,
    (C2_amended .left ⟨100, 100, 100, 50⟩ 120 120 (by decide) (by decide)
      (Or.inl rfl)).1,
    (C2_amended .left ⟨100, 100, 100, 50⟩ 120 120 (by decide) (by decide)
      (Or.inl rfl)).2.1⟩

/-! ## Recognition engine lifecycle (`src/core/ocr_engine.py`)

`MangaOCRWrapper` keeps the flags `_is_loaded`, `_is_loading`, `_load_error`
and the model reference `_mocr`; `_load_model_sync` runs under `_load_lock`.
The concurrent behaviour is modelled as atomic steps on a system state:
`load_async cid` is the synchronous body of `load_model_async` executed by
caller `cid`; the background thread it may spawn is split at the lock into
`thread_begin cid` (acquire `_load_lock`, early-return if already loaded,
else enter the load body) and `thread_finish cid outcome` (the load body's
outcome, flag updates, lock release and completion callback).  `callbacks`
records every completion-callback invocation `(cid, success, error)` in
order; `bodyRuns` counts executions of the load body. -/

/-- Outcome of one execution of the load body. -/
inductive LoadOutcome where
  | ok
  | fail (msg : String)
deriving DecidableEq, Repr

/-- `EngineState` as the spec describes it, derived from the engine's flags. -/
inductive EngineState where
  | unloaded
  | loading
  | loaded
  | failed (msg : String)
deriving DecidableEq, Repr

/-- The engine instance plus the bookkeeping of the concurrency model. -/
structure EngSys where
  /-- `_is_loaded` -/
  loaded : Bool
  /-- `_is_loading` -/
  loading : Bool
  /-- `_load_error` -/
  err : Option String
  /-- whether `_mocr` holds a model object -/
  mocr : Bool
  /-- whether some thread is inside the `_load_lock` critical section -/
  lockHeld : Bool
  /-- completion-callback invocations `(caller id, success, error)`, in order -/
  callbacks : List (Nat × Bool × Option String)
  /-- spawned background threads that have not yet entered `_load_model_sync` -/
  spawned : List Nat
  /-- the thread currently inside the load body, if any -/
  running : List Nat
  /-- number of executions of the load body -/
  bodyRuns : Nat
deriving DecidableEq, Repr

/-- A freshly constructed engine (`__init__`): Unloaded, no error, no model. -/
def engInit : EngSys :=
  ⟨false, false, Option.none, false, false, [], [], [], 0⟩

/-- The spec's `EngineState` of an engine instance. -/
def engineState (s : EngSys) : EngineState :=
  if s.loading then .loading
  else if s.loaded then .loaded
  else
    match s.err with
    | some m => .failed m
    | Option.none => .unloaded

/-- `load_model_async` (the part run synchronously by the caller): if
`_is_loaded or _is_loading`, invoke the callback immediately with the current
status and start nothing; otherwise spawn a background thread. -/
def load_async (cid : Nat) (s : EngSys) : EngSys :=
  if s.loaded || s.loading then
    { s with callbacks := s.callbacks ++ [(cid, s.loaded, s.err)] }
  else
    { s with spawned := s.spawned ++ [cid] }

/-- A spawned thread enters `_load_model_sync` and acquires `_load_lock`
(only possible while no other thread holds it): if `_is_loaded` it returns
without re-entering the load body and its callback fires with the current
status; otherwise it sets `_is_loading`, clears `_load_error` and enters the
load body. -/
def thread_begin (cid : Nat) (s : EngSys) : EngSys :=
  if cid ∈ s.spawned ∧ ¬s.lockHeld ∧ s.running = [] then
    if s.loaded then
      { s with spawned := s.spawned.erase cid,
               callbacks := s.callbacks ++ [(cid, s.loaded, s.err)] }
    else
      { s with spawned := s.spawned.erase cid, running := [cid],
               lockHeld := true, loading := true, err := Option.none,
               bodyRuns := s.bodyRuns + 1 }
  else s

/-- The thread inside the load body finishes with `outcome`: on success
`_mocr` is set and `_is_loaded := True`; on failure `_load_error` is set.
The `finally` block clears `_is_loading`, the lock is released, and the
completion callback fires with the resulting status. -/
def thread_finish (cid : Nat) (outcome : LoadOutcome) (s : EngSys) : EngSys :=
  if cid ∈ s.running then
    let s1 :=
      match outcome with
      | .ok => { s with loaded := true, mocr := true }
      | .fail m => { s with err := some m }
    let s2 := { s1 with loading := false, lockHeld := false, running := [] }
    { s2 with callbacks := s2.callbacks ++ [(cid, s2.loaded, s2.err)] }
  else s

/-- `unload_model`: under `_load_lock` (so only while no load body is in
flight), drop the model, clear all flags and the cached error. -/
def unload_model (s : EngSys) : EngSys :=
  if s.lockHeld then s
  else { s with mocr := false, loaded := false, loading := false, err := Option.none }

/-- Python `str.strip()` on a character list: drop leading and trailing
whitespace. -/
def stripChars (cs : List Char) : List Char :=
  ((cs.dropWhile Char.isWhitespace).reverse.dropWhile Char.isWhitespace).reverse

/-- Python `str.strip()`. -/
def pyStrip (s : String) : String := ⟨stripChars s.data⟩

/-- Error classification of `perform_ocr`'s raises. -/
inductive OcrFailure where
  | failedToLoad (msg : String)
  | notLoaded
  | modelMissing
deriving DecidableEq, Repr

/-- `MangaOCRWrapper.perform_ocr`: raises when `_is_loaded` is false (with the
stored load error if any, else the not-loaded message) without touching the
model, raises if `_mocr` is `None` despite the flag, and otherwise invokes the
model and returns `result.strip() if result else ""`.  `modelResult` is the
text the underlying model returns for the given image; the returned `Bool`
records whether the model was invoked. -/
def perform_ocr (s : EngSys) (modelResult : String) : Bool × Except OcrFailure String :=
  if ¬s.loaded then
    match s.err with
    | some e => (false, .error (.failedToLoad e))
    | Option.none => (false, .error .notLoaded)
  else if ¬s.mocr then (false, .error .modelMissing)
  else (true, .ok (if modelResult = "" then "" else pyStrip modelResult))

/-- `engineState` is `.loaded` exactly when `_is_loaded` is set and no load is
in flight. -/
theorem engineState_loaded_iff {s : EngSys} :
    engineState s = .loaded ↔ s.loaded = true ∧ s.loading = false := by
  unfold engineState
  cases hse : s.err <;> split_ifs <;> simp_all

/-- `engineState` only looks at the `loading`/`loaded`/`err` fields. -/
theorem engineState_eq_of_flags {s t : EngSys} (h1 : s.loading = t.loading)
    (h2 : s.loaded = t.loaded) (h3 : s.err = t.err) :
    engineState s = engineState t := by
  unfold engineState
  rw [h1, h2, h3]

/-- A successfully loaded idle engine. -/
def engLoaded : EngSys := { engInit with loaded := true, mocr := true }

/-- C3 counterexample: caller 1 calls `load_async` on an Unloaded engine and
its worker sets `_is_loading`; caller 2 then calls `load_async` in quick
succession.  The load body runs exactly once, but caller 2's callback is
invoked immediately with the pre-completion status `(False, None)` while
caller 1 later receives `(True, None)` — the two outcomes are not identical
and the second callback is delivered before the in-flight load finishes, not
after. -/
theorem C3_counterexample :
    (thread_finish 1 .ok (load_async 2 (thread_begin 1 (load_async 1 engInit)))).bodyRuns
      = 1 ∧
    (thread_finish 1 .ok (load_async 2 (thread_begin 1 (load_async 1 engInit)))).callbacks
      = [(2, false, Option.none), (1, true, Option.none)] ∧
    ((false, (Option.none : Option String)) ≠ (true, (Option.none : Option String))) ∧
    (load_async 2 (thread_begin 1 (load_async 1 engInit))).callbacks
      = [(2, false, Option.none)] := by
  decide

/-- C3 amended: `load_async` while Loaded or Loading starts no new load and
invokes the callback immediately with the *current* status (during an
in-flight load that is `(False, None)`, not the eventual outcome).  Two calls
in quick succession on an Unloaded engine execute the load body exactly once
when the load succeeds and deliver both callbacks: if the second call races
ahead of the `_is_loading` flag its spawned worker skips the load body and
reports the first load's successful outcome, while a second call that
observes the flag is answered immediately with the pre-completion status. -/
theorem C3_amended :
    (∀ (s : EngSys) (cid : Nat), (s.loaded || s.loading) = true →
      load_async cid s = { s with callbacks := s.callbacks ++ [(cid, s.loaded, s.err)] }) ∧
    ((thread_finish 1 .ok (load_async 2 (thread_begin 1 (load_async 1 engInit)))).bodyRuns
        = 1 ∧
      (thread_finish 1 .ok (load_async 2 (thread_begin 1 (load_async 1 engInit)))).callbacks
        = [(2, false, Option.none), (1, true, Option.none)]) ∧
    ((thread_begin 2 (thread_finish 1 .ok
          (thread_begin 1 (load_async 2 (load_async 1 engInit))))).bodyRuns = 1 ∧
      (thread_begin 2 (thread_finish 1 .ok
          (thread_begin 1 (load_async 2 (load_async 1 engInit))))).callbacks
        = [(1, true, Option.none), (2, true, Option.none)]) := by
  refine ⟨?_, by decide, by decide⟩
  intro s cid h
  unfold load_async
  rw [if_pos h]

/-- Witness for `C3_amended`: a Loaded engine answers `load_async` with an
immediate `(True, None)` callback and spawns nothing. -/
theorem C3_amended_witness :
    (engLoaded.loaded || engLoaded.loading) = true ∧
    load_async 7 engLoaded = { engLoaded with callbacks := [(7, true, Option.none)] } :=
  ⟨by decide, C3_amended.1 engLoaded 7 (by decide)⟩

/-- C4 counterexample: an engine whose state is Failed("load failed") accepts
a new `load_async`; when the spawned worker enters the load body the state
becomes Loading — so a Failed engine does not stay Failed, and an operation
other than unload (namely a retried load) leaves the Failed state. -/
theorem C4_counterexample :
    engineState { engInit with err := some "load failed" } = .failed "load failed" ∧
    engineState (thread_begin 1 (load_async 1 { engInit with err := some "load failed" }))
      = .loading := by
  decide

/-- C4 amended: transitions are Unloaded → Loading and Failed → Loading when a
spawned worker enters the load body (a Failed engine is retryable via
`load_async`), Loading → Loaded or Failed(msg) when the load body finishes,
and anything → Unloaded via explicit unload; `load_async` itself never changes
the state, and a Loaded engine is left Loaded by `thread_begin`. -/
theorem C4_amended (s : EngSys) (cid : Nat) (outcome : LoadOutcome) :
    engineState (load_async cid s) = engineState s ∧
    (s.lockHeld = false → engineState (unload_model s) = .unloaded) ∧
    (engineState s = .loaded → engineState (thread_begin cid s) = .loaded) ∧
    (cid ∈ s.spawned → s.lockHeld = false → s.running = [] → s.loaded = false →
      engineState (thread_begin cid s) = .loading) ∧
    (cid ∈ s.running → s.loaded = false →
      engineState (thread_finish cid outcome s) =
        match outcome with
        | .ok => .loaded
        | .fail m => .failed m) := by
  refine ⟨?_, ?_, ?_, ?_, ?_⟩
  · unfold load_async
    split <;> exact engineState_eq_of_flags rfl rfl rfl
  · intro hl
    unfold unload_model
    rw [if_neg (by simp [hl])]
    rfl
  · intro hs
    obtain ⟨h1, h2⟩ := engineState_loaded_iff.mp hs
    unfold thread_begin
    split_ifs <;>
      exact (engineState_eq_of_flags rfl rfl rfl).trans hs
  · intro hsp hl hr hld
    unfold thread_begin
    rw [if_pos ⟨hsp, by simp [hl], hr⟩, if_neg (by simp [hld])]
    rfl
  · intro hrun hld
    unfold thread_finish
    rw [if_pos hrun]
    cases outcome with
    | ok => rfl
    | fail m =>
      unfold engineState
      simp [hld]

/-- Witness for `C4_amended`: unloading a fresh engine yields Unloaded, and a
worker entering the load body on a fresh engine with a spawned thread yields
Loading. -/
theorem C4_amended_witness :
    (engInit.lockHeld = false ∧ engineState (unload_model engInit) = .unloaded) ∧
    ((1 ∈ (load_async 1 engInit).spawned ∧ (load_async 1 engInit).lockHeld = false ∧
        (load_async 1 engInit).running = [] ∧ (load_async 1 engInit).loaded = false) ∧
      engineState (thread_begin 1 (load_async 1 engInit)) = .loading) :=
  ⟨⟨rfl, (C4_amended engInit 1 .ok).2.1 rfl⟩,
    ⟨⟨by decide, rfl, rfl, rfl⟩,
      (C4_amended (load_async 1 engInit) 1 .ok).2.2.2.1 (by decide) rfl rfl rfl⟩⟩

/-- `result.strip() if result else ""` always equals the stripped text. -/
theorem stripIfTruthy_eq_strip (out : String) :
    (if out = "" then "" else pyStrip out) = pyStrip out := by
  by_cases h : out = ""
  · rw [if_pos h, h]
    rfl
  · rw [if_neg h]

/-- C7: `perform_ocr` on an engine whose state is not Loaded fails with an
error and never invokes the underlying model; on a Loaded engine (with the
model object present) it invokes the model exactly once and returns the
recognized text trimmed of surrounding whitespace, the empty string being a
successful result.  The hypothesis `hwf` is the invariant that the
loaded/loading flags are never both set. -/
theorem C7_infer_contract (s : EngSys) (out : String)
    (hwf : s.loading = true → s.loaded = false) :
    (engineState s ≠ .loaded →
      (perform_ocr s out).1 = false ∧ ∃ e, (perform_ocr s out).2 = .error e) ∧
    (engineState s = .loaded → s.mocr = true →
      perform_ocr s out = (true, .ok (pyStrip out))) ∧
    (engineState s = .loaded → s.mocr = true → out = "" →
      perform_ocr s out = (true, .ok "")) := by
  refine ⟨?_, ?_, ?_⟩
  · intro hns
    have hld : s.loaded = false := by
      cases hld : s.loaded
      · rfl
      · exfalso
        apply hns
        apply engineState_loaded_iff.mpr
        refine ⟨hld, ?_⟩
        cases hlo : s.loading
        · rfl
        · rw [hwf hlo] at hld
          exact absurd hld (by simp)
    unfold perform_ocr
    rw [if_pos (by simp [hld])]
    cases s.err <;> exact ⟨rfl, _, rfl⟩
  · intro hs hm
    obtain ⟨h1, -⟩ := engineState_loaded_iff.mp hs
    unfold perform_ocr
    rw [if_neg (by simp [h1]), if_neg (by simp [hm]), stripIfTruthy_eq_strip]
  · intro hs hm ho
    obtain ⟨h1, -⟩ := engineState_loaded_iff.mp hs
    unfold perform_ocr
    rw [if_neg (by simp [h1]), if_neg (by simp [hm]), ho, if_pos rfl]

/-- Witness for `C7_infer_contract`: a Loaded engine trims the model's text,
and an Unloaded engine fails without invoking the model. -/
theorem C7_infer_contract_witness :
    (engineState engLoaded = .loaded ∧
      perform_ocr engLoaded " abc " = (true, .ok (pyStrip " abc "))) ∧
    (engineState engInit ≠ .loaded ∧ (perform_ocr engInit " abc ").1 = false) :=
  ⟨⟨by decide,
      (C7_infer_contract engLoaded " abc " (by simp [engLoaded, engInit])).2.1
        (by decide) rfl⟩,
    ⟨by decide,
      ((C7_infer_contract engInit " abc " (by simp [engInit])).1 (by decide)).1⟩⟩

/-! ## Macro system (`src/core/macro_system.py`)

Timestamps are modelled as `ℚ`.  `MacroManager`'s state, event log,
availability flags and kill flag are explicit; playback is modelled as the
trace of sleeps and event executions the worker performs, with the kill flag
sampled at each read (the reads are indexed in program order, so an arbitrary
asynchronous kill-key schedule is a function from read index to `Bool`). -/

/-- `EventType` enum. -/
inductive EventType where
  | keyDown | keyUp | mouseClick | mouseDown | mouseUp | mouseMove | mouseScroll
deriving DecidableEq, Repr

/-- `InputEvent`: type, timestamp relative to recording start, payload. -/
structure InputEvent where
  eventType : EventType
  timestamp : ℚ
  data : List (String × String)
deriving DecidableEq, Repr

/-- `MacroState` enum. -/
inductive MacroState where
  | idle | recording | playing
deriving DecidableEq, Repr

/-- The `MacroManager` fields the claims depend on. -/
structure MacroMgr where
  state : MacroState
  events : List InputEvent
  startTime : ℚ
  killRequested : Bool
  keyboardAvailable : Bool
  mouseAvailable : Bool
deriving DecidableEq, Repr

/-- `MacroManager.is_available`. -/
def is_available (m : MacroMgr) : Bool := m.keyboardAvailable || m.mouseAvailable

/-- `MacroManager.start_recording`: fails unless Idle and some input library
is available; otherwise clears the log, marks the start time and transitions
to Recording. -/
def start_recording (now : ℚ) (m : MacroMgr) : Bool × MacroMgr :=
  if m.state ≠ .idle then (false, m)
  else if ¬is_available m then (false, m)
  else (true, { m with events := [], startTime := now, state := .recording })

/-- `MacroManager.play`: fails unless Idle; plays the explicit log if given,
else the recorded one; fails if that log is empty; otherwise clears the kill
flag and transitions to Playing. -/
def play (explicit : Option (List InputEvent)) (m : MacroMgr) : Bool × MacroMgr :=
  if m.state ≠ .idle then (false, m)
  else
    let evs := explicit.getD m.events
    if evs = [] then (false, m)
    else (true, { m with killRequested := false, state := .playing })

/-- One observable step of `_playback_worker`. -/
inductive PlayStep where
  | sleep (d : ℚ)
  | exec (e : InputEvent)
  | aborted
deriving DecidableEq, Repr

/-- `MacroManager._playback_worker`'s loop: for each event, check the kill
flag (read index `i`), sleep the positive delta to the previous timestamp,
check the kill flag again (read index `i+1`), then execute the event.  A true
kill read aborts the remaining sequence. -/
def playback_worker (kill : Nat → Bool) : Nat → ℚ → List InputEvent → List PlayStep
  | _, _, [] => []
  | i, prev, e :: rest =>
    if kill i then [.aborted]
    else
      let delay := e.timestamp - prev
      let sleeps := if 0 < delay then [PlayStep.sleep delay] else []
      if kill (i + 1) then sleeps ++ [.aborted]
      else sleeps ++ .exec e :: playback_worker kill (i + 2) e.timestamp rest

/-- The events a playback trace executes, in order. -/
def execedEvents (tr : List PlayStep) : List InputEvent :=
  tr.filterMap fun s =>
    match s with
    | .exec e => some e
    | _ => Option.none

/-- Total time slept by a playback trace. -/
def totalSleep (tr : List PlayStep) : ℚ :=
  (tr.map fun s =>
    match s with
    | .sleep d => d
    | _ => 0).sum

/-- Sum of the non-negatively clamped inter-event deltas. -/
def sumDeltas (prev : ℚ) : List InputEvent → ℚ
  | [] => 0
  | e :: rest => max 0 (e.timestamp - prev) + sumDeltas e.timestamp rest

theorem playback_no_kill_execs (evs : List InputEvent) :
    ∀ (i : Nat) (prev : ℚ),
      execedEvents (playback_worker (fun _ => false) i prev evs) = evs := by
  induction evs with
  | nil => intro i prev; rfl
  | cons e rest ih =>
    intro i prev
    by_cases hd : (0 : ℚ) < e.timestamp - prev <;>
      simp [playback_worker, execedEvents, hd] <;>
      try exact ih _ _

theorem playback_no_kill_sleep (evs : List InputEvent) :
    ∀ (i : Nat) (prev : ℚ),
      totalSleep (playback_worker (fun _ => false) i prev evs) = sumDeltas prev evs := by
  induction evs with
  | nil => intro i prev; rfl
  | cons e rest ih =>
    intro i prev
    by_cases hd : (0 : ℚ) < e.timestamp - prev
    · simp only [playback_worker, if_pos hd, Bool.false_eq_true, if_false,
        totalSleep, sumDeltas, List.map_append, List.map_cons, List.sum_append,
        List.map_nil, List.sum_cons, List.sum_nil, max_eq_right hd.le]
      have := ih (i + 2) e.timestamp
      unfold totalSleep at this
      rw [this]
      try ring
    · simp only [playback_worker, if_neg hd, Bool.false_eq_true, if_false,
        totalSleep, sumDeltas, List.nil_append, List.map_cons, List.sum_cons,
        max_eq_left (le_of_not_lt hd)]
      have := ih (i + 2) e.timestamp
      unfold totalSleep at this
      rw [this]
      try ring

theorem playback_execs_prefix (evs : List InputEvent) :
    ∀ (kill : Nat → Bool) (i : Nat) (prev : ℚ),
      ∃ rest, evs = execedEvents (playback_worker kill i prev evs) ++ rest := by
  induction evs with
  | nil => exact fun kill i prev => ⟨[], rfl⟩
  | cons e tail ih =>
    intro kill i prev
    by_cases h1 : kill i = true
    · exact ⟨e :: tail, by simp [playback_worker, h1, execedEvents]⟩
    · by_cases h2 : kill (i + 1) = true
      · refine ⟨e :: tail, ?_⟩
        by_cases hd : (0 : ℚ) < e.timestamp - prev <;>
          simp [playback_worker, h1, h2, hd, execedEvents]
      · obtain ⟨rest, hrest⟩ := ih kill (i + 2) e.timestamp
        refine ⟨rest, ?_⟩
        by_cases hd : (0 : ℚ) < e.timestamp - prev <;>
          simp [playback_worker, h1, h2, hd, execedEvents] <;>
          exact hrest

/-- C8: `start_recording` and `play` return false and leave both the state
and the stored event log unchanged when the state is not Idle; `play`
additionally fails on an empty log; and the single state value can never be
Recording and Playing at once. -/
theorem C8_mutual_exclusion (m : MacroMgr) (now : ℚ)
    (explicit : Option (List InputEvent)) :
    (m.state ≠ .idle →
      start_recording now m = (false, m) ∧ play explicit m = (false, m)) ∧
    (explicit.getD m.events = [] → play explicit m = (false, m)) ∧
    ¬(m.state = .recording ∧ m.state = .playing) := by
  refine ⟨fun hni => ⟨?_, ?_⟩, fun hemp => ?_, fun ⟨h1, h2⟩ => by rw [h1] at h2; exact absurd h2 (by decide)⟩
  · unfold start_recording
    rw [if_pos hni]
  · unfold play
    rw [if_pos hni]
  · unfold play
    by_cases hst : m.state ≠ .idle
    · rw [if_pos hst]
    · rw [if_neg hst]
      simp [hemp]

/-- Witness for `C8_mutual_exclusion`: a Recording manager rejects both
`start_recording` and `play`, and an Idle manager rejects `play` on an empty
log, all without state change. -/
theorem C8_mutual_exclusion_witness :
    ((⟨.recording, [], 0, false, true, true⟩ : MacroMgr).state ≠ .idle ∧
      start_recording 5 ⟨.recording, [], 0, false, true, true⟩ =
        (false, ⟨.recording, [], 0, false, true, true⟩) ∧
      play Option.none ⟨.recording, [], 0, false, true, true⟩ =
        (false, ⟨.recording, [], 0, false, true, true⟩)) ∧
    ((Option.none : Option (List InputEvent)).getD
        (⟨.idle, [], 0, false, true, true⟩ : MacroMgr).events = [] ∧
      play Option.none ⟨.idle, [], 0, false, true, true⟩ =
        (false, ⟨.idle, [], 0, false, true, true⟩)) :=
  ⟨⟨by decide,
      (C8_mutual_exclusion ⟨.recording, [], 0, false, true, true⟩ 5 Option.none).1
        (by decide) |>.1,
      (C8_mutual_exclusion ⟨.recording, [], 0, false, true, true⟩ 5 Option.none).1
        (by decide) |>.2⟩,
    ⟨rfl,
      (C8_mutual_exclusion ⟨.idle, [], 0, false, true, true⟩ 5 Option.none).2.1 rfl⟩⟩

/-- C9: playback executes events in strict log order (all of them when the
kill flag never reads true, a prefix of them otherwise), the total sleep is
the sum of the inter-event timestamp deltas clamped to non-negative, and for
the log with timestamps [0, 0.2]: the full trace is exec, sleep 0.2, exec
(so the replay takes at least 0.2 s), while a kill flag set after the first
event (true from read index 2 on) aborts before the second event executes. -/
theorem C9_playback (evs : List InputEvent) (kill : Nat → Bool) (i : Nat) (prev : ℚ) :
    execedEvents (playback_worker (fun _ => false) i prev evs) = evs ∧
    totalSleep (playback_worker (fun _ => false) i prev evs) = sumDeltas prev evs ∧
    (∃ rest, evs = execedEvents (playback_worker kill i prev evs) ++ rest) ∧
    playback_worker (fun _ => false) 0 0
        [⟨.keyDown, 0, []⟩, ⟨.keyUp, 1/5, []⟩] =
      [.exec ⟨.keyDown, 0, []⟩, .sleep (1/5), .exec ⟨.keyUp, 1/5, []⟩] ∧
    playback_worker (fun j => decide (2 ≤ j)) 0 0
        [⟨.keyDown, 0, []⟩, ⟨.keyUp, 1/5, []⟩] =
      [.exec ⟨.keyDown, 0, []⟩, .aborted] := by
  refine ⟨playback_no_kill_execs evs i prev, playback_no_kill_sleep evs i prev,
    playback_execs_prefix evs kill i prev, ?_, ?_⟩
  · norm_num [playback_worker]
  · norm_num [playback_worker]

/-! ## PaddleOCR variant (`src/core/paddle_ocr_engine.py`)

`PaddleOCRWrapper` has the same lifecycle fields as `MangaOCRWrapper`; its
`perform_ocr` differs after the model call.  A PaddleOCR 3.x result carries
zipped `rec_texts`/`rec_scores`, modelled as a list of (text, score) pairs;
confidence scores are modelled as `ℚ`. -/

/-- The segment filter inside `PaddleOCRWrapper.perform_ocr`:
`if text and score > 0.3: texts.append(text)` — keep a segment's text when
the text is non-empty (truthy) and the score is strictly greater than 0.3,
preserving detection order. -/
def paddleFilter (segs : List (String × ℚ)) : List String :=
  segs.filterMap fun ts =>
    if ts.1 ≠ "" ∧ ts.2 > 3/10 then some ts.1 else Option.none

/-- `PaddleOCRWrapper.perform_ocr` on the PaddleOCR 3.x result structure:
raises as the manga-ocr variant does when not loaded, and otherwise
accumulates the accepted texts across all results in detection order, joins
them with no separator (`''.join(texts)`) and strips the result (an empty or
missing result list yields the same empty string). -/
def paddle_perform_ocr (s : EngSys) (results : List (List (String × ℚ))) :
    Bool × Except OcrFailure String :=
  if ¬s.loaded then
    match s.err with
    | some e => (false, .error (.failedToLoad e))
    | Option.none => (false, .error .notLoaded)
  else if ¬s.mocr then (false, .error .modelMissing)
  else (true, .ok (pyStrip (String.join ((results.map paddleFilter).flatten))))

/-- C10: on a loaded PaddleOCR engine, segments whose confidence is not
strictly greater than 0.3 are silently dropped, surviving segments are
concatenated in detection order with no separator before stripping, the
operation can return the empty string even when the backend detected text
(e.g. one segment at confidence 0.2), and the manga-ocr variant applies no
such filter — it returns whatever the model produced, stripped. -/
theorem C10_confidence_filter (s : EngSys) (results : List (List (String × ℚ)))
    (hld : s.loaded = true) (hm : s.mocr = true) :
    paddle_perform_ocr s results =
      (true, .ok (pyStrip (String.join ((results.map paddleFilter).flatten)))) ∧
    (∀ (t : String) (sc : ℚ) (rest : List (String × ℚ)), sc ≤ 3/10 →
      paddleFilter ((t, sc) :: rest) = paddleFilter rest) ∧
    (∀ (t : String) (sc : ℚ) (rest : List (String × ℚ)), t ≠ "" → 3/10 < sc →
      paddleFilter ((t, sc) :: rest) = t :: paddleFilter rest) ∧
    paddle_perform_ocr s [[("あ", 1/5)]] = (true, .ok "") ∧
    perform_ocr s "あ" = (true, .ok "あ") := by
  refine ⟨?_, ?_, ?_, ?_, ?_⟩
  · unfold paddle_perform_ocr
    rw [if_neg (by simp [hld]), if_neg (by simp [hm])]
  · intro t sc rest hsc
    have hcond : ¬((t, sc).1 ≠ "" ∧ (t, sc).2 > 3/10) :=
      fun hc => absurd hc.2 (not_lt.mpr hsc)
    simp only [paddleFilter, List.filterMap_cons, if_neg hcond]
  · intro t sc rest ht hsc
    have hcond : ((t, sc).1 ≠ "" ∧ (t, sc).2 > 3/10) := ⟨ht, hsc⟩
    simp only [paddleFilter, List.filterMap_cons, if_pos hcond]
  · unfold paddle_perform_ocr
    rw [if_neg (by simp [hld]), if_neg (by simp [hm])]
    have hdrop : paddleFilter [("あ", 1/5)] = [] := by
      have hcond : ¬((("あ" : String), (1/5 : ℚ)).1 ≠ "" ∧
          ((("あ" : String), (1/5 : ℚ))).2 > 3/10) := by
        rintro ⟨-, hgt⟩
        norm_num at hgt
      simp only [paddleFilter, List.filterMap_cons, if_neg hcond, List.filterMap_nil]
    rw [show ([[(("あ" : String), (1/5 : ℚ))]].map paddleFilter) = [paddleFilter [("あ", 1/5)]]
      from rfl, hdrop]
    rfl
  · unfold perform_ocr
    rw [if_neg (by simp [hld]), if_neg (by simp [hm]),
      if_neg (show ¬(("あ" : String) = "") by decide)]
    rfl

/-- Witness for `C10_confidence_filter`: a loaded engine drops the single
segment ("あ", 0.2) and returns the empty string as success. -/
theorem C10_confidence_filter_witness :
    (engLoaded.loaded = true ∧ engLoaded.mocr = true) ∧
    paddle_perform_ocr engLoaded [[("あ", 1/5)]] = (true, .ok "") :=
  ⟨⟨rfl, rfl⟩, (C10_confidence_filter engLoaded [] rfl rfl).2.2.2.1⟩

end JOcr
